import Mathlib

/-!
Verification of the forearm-workout chat bot (`src/bot.py`).

The development shallowly embeds the bot's pure core:

* `WorkoutStats` mirrors one entry of the `user_stats` defaultdict
  (`bot.py:33-41`), with timestamps modelled as seconds (`Nat`) so that the
  whole-day difference `(now - last).days` of the source becomes
  `(now - last) / 86400`.
* `check_achievements` mirrors `bot.py:152-190` as a fold over the rule table
  in the source's check order; `grant` is one guarded append.
* `updateStats` mirrors the mutation block of `process_workout_log`
  (`bot.py:465-481`) in source order: the counters and `last_workout` are
  written first, and only then is the streak branch taken, so the branch reads
  the timestamp that was just written.
* The scheduler, reminder job, Google-Sheets logger and callback router are
  embedded as pure functions over explicit job lists / row lists / strings.
-/

set_option maxRecDepth 100000

namespace ForearmBot

/-- One per-chat stats record, as initialised by the `user_stats` defaultdict
(`bot.py:33-41`).  `current_streak` is an `Int` because Python integers are
signed; `last_workout` stores the logged timestamp in seconds. -/
@[ext]
structure WorkoutStats where
  workouts_done : Nat
  total_hold_time : Nat
  max_hold_time : Nat
  pullups_done : Nat
  current_streak : Int
  last_workout : Option Nat
  achievements : List String
deriving DecidableEq

/-- The all-zero record the defaultdict lambda produces. -/
def freshStats : WorkoutStats :=
  { workouts_done := 0, total_hold_time := 0, max_hold_time := 0,
    pullups_done := 0, current_streak := 0, last_workout := none,
    achievements := [] }

/-- The achievement catalog keys, in the declaration order of the
`ACHIEVEMENTS` dict (`bot.py:72-80`). -/
def ACHIEVEMENTS : List String :=
  ["first_workout", "streak_3", "streak_10", "hold_60",
   "workouts_10", "workouts_50", "pullup_king"]

/-- One guarded grant step of `check_achievements`: if the condition holds and
the id is not yet in the achievements list, append it to the stats record and
to the newly-unlocked list. -/
def grant (p : WorkoutStats × List String) (id : String)
    (c : WorkoutStats → Bool) : WorkoutStats × List String :=
  if c p.1 && !(p.1.achievements.contains id) then
    ({ p.1 with achievements := p.1.achievements ++ [id] }, p.2 ++ [id])
  else p

/-- The achievement rules of `check_achievements` (`bot.py:152-190`), paired
with their threshold conditions, in the order the source checks them. -/
def achRules : List (String × (WorkoutStats → Bool)) :=
  [("first_workout", fun s => s.workouts_done == 1),
   ("streak_3", fun s => decide (3 ≤ s.current_streak)),
   ("streak_10", fun s => decide (10 ≤ s.current_streak)),
   ("workouts_10", fun s => decide (10 ≤ s.workouts_done)),
   ("workouts_50", fun s => decide (50 ≤ s.workouts_done)),
   ("hold_60", fun s => decide (60 ≤ s.max_hold_time)),
   ("pullup_king", fun s => decide (100 ≤ s.pullups_done))]

/-- Fold a rule list over one stats record, threading the newly-unlocked
list. -/
def foldGrant (rules : List (String × (WorkoutStats → Bool)))
    (p : WorkoutStats × List String) : WorkoutStats × List String :=
  rules.foldl (fun q r => grant q r.1 r.2) p

/-- `check_achievements` (`bot.py:152-190`): run every rule once, returning the
updated stats and the newly-unlocked achievement ids. -/
def check_achievements (stats : WorkoutStats) : WorkoutStats × List String :=
  foldGrant achRules (stats, [])

/-- The rule at position `k` of the table (a vacuous rule out of range). -/
def achRuleAt (k : Nat) : String × (WorkoutStats → Bool) :=
  achRules.getD k ("", fun _ => false)

/-- A threshold condition that does not depend on the achievements list (all
rules of the catalog are of this shape). -/
def achIndep (cb : WorkoutStats → Bool) : Prop :=
  ∀ s l, cb { s with achievements := l } = cb s

/-- One invocation of the workout-log operation: the timestamp `now` (seconds)
plus the two parsed metrics. -/
structure LogCall where
  now : Nat
  hold_time : Nat
  pullups : Nat
deriving DecidableEq

/-- The stats-mutation block of `process_workout_log` (`bot.py:465-481`), in
source order: counters and `last_workout` are updated first (lines 466-470),
then the streak branch runs (lines 473-481) and therefore reads the
`last_workout` value that line 470 just wrote. -/
def updateStats (stats : WorkoutStats) (c : LogCall) : WorkoutStats :=
  let s := { stats with
    workouts_done := stats.workouts_done + 1,
    total_hold_time := stats.total_hold_time + c.hold_time * 3,
    max_hold_time := max stats.max_hold_time c.hold_time,
    pullups_done := stats.pullups_done + c.pullups * 3,
    last_workout := some c.now }
  match s.last_workout with
  | some last =>
      if (c.now - last) / 86400 ≤ 2 then
        { s with current_streak := s.current_streak + 1 }
      else
        { s with current_streak := 1 }
  | none => { s with current_streak := 1 }

/-- The full stats effect of `process_workout_log`: mutate the record, then run
`check_achievements` on it (`bot.py:484`). -/
def log_workout (stats : WorkoutStats) (c : LogCall) :
    WorkoutStats × List String :=
  check_achievements (updateStats stats c)

/-- Apply a sequence of workout-log calls in order. -/
def runLog (stats : WorkoutStats) : List LogCall → WorkoutStats
  | [] => stats
  | c :: cs => runLog (log_workout stats c).1 cs

/-- The i-th call of a sequence (the all-zero call out of range). -/
def callAt (cs : List LogCall) (i : Nat) : LogCall :=
  cs.getD i { now := 0, hold_time := 0, pullups := 0 }

/-- The stats snapshot that `check_achievements` sees during call `i` of a run
from the fresh record: the state after the first `i` calls, mutated by call
`i`. -/
def snap (cs : List LogCall) (i : Nat) : WorkoutStats :=
  updateStats (runLog freshStats (cs.take i)) (callAt cs i)

/-- The newly-unlocked list returned by call `i` of a run from the fresh
record. -/
def grantedAt (cs : List LogCall) (i : Nat) : List String :=
  (log_workout (runLog freshStats (cs.take i)) (callAt cs i)).2

/-- One scheduled trigger of the job queue, as created by
`schedule_reminders_for_user` (`bot.py:625-650`): chat id, job name, weekday
index and the fixed reminder time. -/
structure Job where
  chat_id : Int
  name : String
  day : Nat
  hour : Nat
  minute : Nat
deriving DecidableEq

/-- The weekday indices of the reminder schedule (`bot.py:638`): Monday,
Wednesday, Friday. -/
def target_days : List Nat := [0, 2, 4]

/-- `schedule_reminders_for_user` (`bot.py:625-650`): remove every job of this
chat id named `forearm_reminder`, then install one daily trigger per target
day at 17:00. -/
def schedule_reminders_for_user (jobs : List Job) (chat_id : Int) : List Job :=
  (jobs.filter fun j => !(j.chat_id == chat_id && j.name == "forearm_reminder"))
    ++ target_days.map (fun d =>
        { chat_id := chat_id, name := "forearm_reminder",
          day := d, hour := 17, minute := 0 })

/-- Invoke `schedule_reminders_for_user` for the same chat id `n` times. -/
def iterSchedule (jobs : List Job) (chat_id : Int) : Nat → List Job
  | 0 => jobs
  | n + 1 => schedule_reminders_for_user (iterSchedule jobs chat_id n) chat_id

/-- `send_reminder` (`bot.py:583-622`), over the user registry (the chat ids
present in `user_chats`), the current job queue and the firing job.
`delivery_ok` stands for whether `bot.send_message` succeeds; a raised delivery
error is caught by the handler's `try`/`except` (`bot.py:606-622`).  The result
is the job queue after the firing together with the number of outbound
messages sent. -/
def send_reminder (user_chats : List Int) (jobs : List Job) (job : Job)
    (delivery_ok : Bool) : List Job × Nat :=
  if job.chat_id ∉ user_chats then
    (jobs.filter (fun j => !(j == job)), 0)
  else if delivery_ok then
    (jobs, 1)
  else
    (jobs, 0)

/-- One appended row of the `Logs!A:F` range (`bot.py:120-127`). -/
structure SheetRow where
  timestamp : String
  event_type : String
  chat_str : String
  username : String
  message : String
  additional_data : String
deriving DecidableEq

/-- The `GoogleSheetsLogger` object: `service` is `none` exactly when
`_initialize_service` failed (`bot.py:97-107`). -/
structure GoogleSheetsLogger where
  spreadsheet_id : String
  service : Option Unit

/-- The spreadsheet append call (`bot.py:131-136`), which may fail with an
HTTP error. -/
def append_api (ok : Bool) (rows : List SheetRow) (row : SheetRow) :
    Except String (List SheetRow) :=
  if ok then .ok (rows ++ [row]) else .error "HttpError"

/-- `GoogleSheetsLogger.log_event` (`bot.py:109-139`): a no-op when the service
is unavailable; otherwise append one row, catching any append failure.  The
function is total — the `try`/`except` of the source means no error ever
reaches the caller. -/
def log_event (lg : GoogleSheetsLogger) (rows : List SheetRow)
    (event_type : String) (chat_id : Option Int) (username : Option String)
    (message : String) (additional_data : String) (timestamp : String)
    (append_ok : Bool) : List SheetRow :=
  match lg.service with
  | none => rows
  | some _ =>
      let row : SheetRow :=
        { timestamp := timestamp, event_type := event_type,
          chat_str := match chat_id with
            | some c => if c = 0 then "" else toString c
            | none => "",
          username := username.getD "", message := message,
          additional_data := additional_data }
      match append_api append_ok rows row with
      | .ok newRows => newRows
      | .error _ => rows

/-- Parsing of the workout-log callback payload inside `process_workout_log`
(`bot.py:445-463`): both metrics start at their defaults and at most one of
them is overwritten by the matched bucket. -/
def parseCallback (callback_data : String) : Nat × Nat :=
  let hold_time := 25
  let pullups := 6
  if callback_data = "log_hold_25" then (25, pullups)
  else if callback_data = "log_hold_35" then (35, pullups)
  else if callback_data = "log_hold_45" then (45, pullups)
  else if callback_data = "log_pull_5" then (hold_time, 5)
  else if callback_data = "log_pull_7" then (hold_time, 7)
  else if callback_data = "log_pull_9" then (hold_time, 9)
  else if callback_data = "log_simple" then (25, 6)
  else (hold_time, pullups)

/-- The action `button_callback` (`bot.py:249-270`) dispatches a callback
payload to. -/
inductive Routed where
  | workout_today
  | stats_view
  | achievements_view
  | help_view
  | random_fact
  | ask_details
  | logged (hold_time : Nat) (pullups : Nat)
  | ignored
deriving DecidableEq

/-- `button_callback` (`bot.py:249-270`): the `elif` chain, with any payload
beginning with `log_` (other than `log_workout`, matched earlier) routed to
`process_workout_log` with the metrics parsed by `parseCallback`.  The
`callback_data.startswith("log_")` test of the source is read at the character
level: the character sequence of `"log_"` is a prefix of the payload's. -/
def button_callback (callback_data : String) : Routed :=
  if callback_data = "workout_today" then .workout_today
  else if callback_data = "stats" then .stats_view
  else if callback_data = "achievements" then .achievements_view
  else if callback_data = "help" then .help_view
  else if callback_data = "random_fact" then .random_fact
  else if callback_data = "log_workout" then .ask_details
  else if "log_".data.isPrefixOf callback_data.data then
    .logged (parseCallback callback_data).1 (parseCallback callback_data).2
  else .ignored

/-- The `user_stats` defaultdict access `user_stats[chat_id]`
(`bot.py:33-41`): the stored record, or a fresh all-zero record when the chat
id has no entry yet. -/
def statsFor (store : List (Int × WorkoutStats)) (chat_id : Int) :
    WorkoutStats :=
  match store.lookup chat_id with
  | some s => s
  | none => freshStats

/-- The response payload of a status/log interaction.  The constructors
`statsView` and `workoutLogged` carry the fields the source interpolates into
its reply text (`bot.py:309-318`, `bot.py:488-498`).  `guidance` is modelled
from the spec: spec 7 demands a "register first" guidance message for
unregistered users; no code path of `src/bot.py` produces such a response, and
the constructor exists only to compare the spec's demand with the code. -/
inductive Response where
  | statsView (workouts_done : Nat) (total_hold_time : Nat)
      (max_hold_time : Nat) (pullups_done : Nat) (current_streak : Int)
      (achievement_count : Nat)
  | workoutLogged (workouts_done : Nat) (current_streak : Int)
      (new_achievements : List String)
  | guidance (text : String)
deriving DecidableEq

/-- Whether a response is the guidance message the spec demands. -/
def Response.isGuidance : Response → Bool
  | .guidance _ => true
  | _ => false

/-- `show_stats` (`bot.py:301-333`): reads only the `user_stats` defaultdict —
lazily creating an all-zero record — and composes the normal statistics view.
The user registry `user_chats` is never consulted. -/
def show_stats (store : List (Int × WorkoutStats)) (chat_id : Int) :
    Response :=
  let stats := statsFor store chat_id
  .statsView stats.workouts_done stats.total_hold_time stats.max_hold_time
    stats.pullups_done stats.current_streak stats.achievements.length

/-- The whole `process_workout_log` handler (`bot.py:441-517`): parse the
payload, update the stats, compose the reply, then (best-effort) log one
`WORKOUT_COMPLETED` event.  Returns the updated stats, the reply and the sheet
rows after the logging attempt. -/
def process_workout_log (lg : GoogleSheetsLogger) (rows : List SheetRow)
    (stats : WorkoutStats) (chat_id : Int) (username : Option String)
    (callback_data : String) (now : Nat) (timestamp : String)
    (append_ok : Bool) : WorkoutStats × Response × List SheetRow :=
  let hold_time := (parseCallback callback_data).1
  let pullups := (parseCallback callback_data).2
  let r := log_workout stats { now := now, hold_time := hold_time, pullups := pullups }
  let response : Response := .workoutLogged r.1.workouts_done r.1.current_streak r.2
  let rows := log_event lg rows "WORKOUT_COMPLETED" (some chat_id) username
    (String.append "Тренировка #" (toString r.1.workouts_done))
    (String.append "hold:" (String.append (toString hold_time)
      (String.append ",pullups:" (toString pullups)))) timestamp append_ok
  (r.1, response, rows)

/-! ### Facts about `grant` and `foldGrant` -/

lemma contains_false_iff (l : List String) (a : String) :
    l.contains a = false ↔ a ∉ l := by simp

lemma grant_fst_withAch (p : WorkoutStats × List String) (id : String)
    (c : WorkoutStats → Bool) :
    (grant p id c).1 =
      { p.1 with achievements := (grant p id c).1.achievements } := by
  unfold grant; split <;> rfl

lemma grant_fields (p : WorkoutStats × List String) (id : String)
    (c : WorkoutStats → Bool) :
    (grant p id c).1.workouts_done = p.1.workouts_done ∧
    (grant p id c).1.total_hold_time = p.1.total_hold_time ∧
    (grant p id c).1.max_hold_time = p.1.max_hold_time ∧
    (grant p id c).1.pullups_done = p.1.pullups_done ∧
    (grant p id c).1.current_streak = p.1.current_streak ∧
    (grant p id c).1.last_workout = p.1.last_workout := by
  unfold grant; split <;> exact ⟨rfl, rfl, rfl, rfl, rfl, rfl⟩

lemma grant_fst_mem (p : WorkoutStats × List String) (id : String)
    (c : WorkoutStats → Bool) (x : String) :
    x ∈ (grant p id c).1.achievements ↔
      x ∈ p.1.achievements ∨
        (id = x ∧ c p.1 = true ∧ id ∉ p.1.achievements) := by
  unfold grant
  split
  · rename_i h
    simp only [Bool.and_eq_true, Bool.not_eq_true', contains_false_iff] at h
    simp only [List.mem_append, List.mem_singleton]
    constructor
    · rintro (hx | rfl)
      · exact Or.inl hx
      · exact Or.inr ⟨rfl, h.1, h.2⟩
    · rintro (hx | ⟨rfl, _, _⟩)
      · exact Or.inl hx
      · exact Or.inr rfl
  · rename_i h
    simp only [Bool.and_eq_true, Bool.not_eq_true', contains_false_iff,
      not_and, not_not] at h
    constructor
    · exact Or.inl
    · rintro (hx | ⟨rfl, hc, hni⟩)
      · exact hx
      · exact absurd (h hc) hni

lemma grant_snd_mem (p : WorkoutStats × List String) (id : String)
    (c : WorkoutStats → Bool) (x : String) :
    x ∈ (grant p id c).2 ↔
      x ∈ p.2 ∨ (id = x ∧ c p.1 = true ∧ id ∉ p.1.achievements) := by
  unfold grant
  split
  · rename_i h
    simp only [Bool.and_eq_true, Bool.not_eq_true', contains_false_iff] at h
    simp only [List.mem_append, List.mem_singleton]
    constructor
    · rintro (hx | rfl)
      · exact Or.inl hx
      · exact Or.inr ⟨rfl, h.1, h.2⟩
    · rintro (hx | ⟨rfl, _, _⟩)
      · exact Or.inl hx
      · exact Or.inr rfl
  · rename_i h
    simp only [Bool.and_eq_true, Bool.not_eq_true', contains_false_iff,
      not_and, not_not] at h
    constructor
    · exact Or.inl
    · rintro (hx | ⟨rfl, hc, hni⟩)
      · exact hx
      · exact absurd (h hc) hni

lemma grant_nodup (p : WorkoutStats × List String) (id : String)
    (c : WorkoutStats → Bool) (h : p.1.achievements.Nodup) :
    (grant p id c).1.achievements.Nodup := by
  unfold grant
  split
  · rename_i hc
    simp only [Bool.and_eq_true, Bool.not_eq_true', contains_false_iff] at hc
    simp [List.nodup_append, h, hc.2]
  · exact h

lemma foldGrant_nil (p : WorkoutStats × List String) : foldGrant [] p = p := rfl

lemma foldGrant_cons (r : String × (WorkoutStats → Bool))
    (R : List (String × (WorkoutStats → Bool)))
    (p : WorkoutStats × List String) :
    foldGrant (r :: R) p = foldGrant R (grant p r.1 r.2) := rfl

lemma foldGrant_fields (R : List (String × (WorkoutStats → Bool)))
    (p : WorkoutStats × List String) :
    (foldGrant R p).1.workouts_done = p.1.workouts_done ∧
    (foldGrant R p).1.total_hold_time = p.1.total_hold_time ∧
    (foldGrant R p).1.max_hold_time = p.1.max_hold_time ∧
    (foldGrant R p).1.pullups_done = p.1.pullups_done ∧
    (foldGrant R p).1.current_streak = p.1.current_streak ∧
    (foldGrant R p).1.last_workout = p.1.last_workout := by
  induction R generalizing p with
  | nil => exact ⟨rfl, rfl, rfl, rfl, rfl, rfl⟩
  | cons r R ih =>
      have hg := grant_fields p r.1 r.2
      have h2 := ih (grant p r.1 r.2)
      rw [foldGrant_cons]
      exact ⟨h2.1.trans hg.1, h2.2.1.trans hg.2.1, h2.2.2.1.trans hg.2.2.1,
        h2.2.2.2.1.trans hg.2.2.2.1, h2.2.2.2.2.1.trans hg.2.2.2.2.1,
        h2.2.2.2.2.2.trans hg.2.2.2.2.2⟩

lemma foldGrant_fst_withAch (R : List (String × (WorkoutStats → Bool)))
    (p : WorkoutStats × List String) :
    (foldGrant R p).1 =
      { p.1 with achievements := (foldGrant R p).1.achievements } := by
  have h := foldGrant_fields R p
  exact WorkoutStats.ext h.1 h.2.1 h.2.2.1 h.2.2.2.1 h.2.2.2.2.1
    h.2.2.2.2.2 rfl

lemma achIndep_grant {cb : WorkoutStats → Bool} (hcb : achIndep cb)
    (p : WorkoutStats × List String) (id : String)
    (c : WorkoutStats → Bool) : cb (grant p id c).1 = cb p.1 := by
  rw [grant_fst_withAch]; exact hcb p.1 _

lemma foldGrant_mem_ach (R : List (String × (WorkoutStats → Bool)))
    (hind : ∀ r ∈ R, achIndep r.2) (p : WorkoutStats × List String)
    (x : String) :
    x ∈ (foldGrant R p).1.achievements ↔
      x ∈ p.1.achievements ∨ ∃ r ∈ R, r.1 = x ∧ r.2 p.1 = true := by
  induction R generalizing p with
  | nil => simp [foldGrant]
  | cons r R ih =>
      rw [foldGrant_cons,
        ih (fun r' hr' => hind r' (List.mem_cons_of_mem _ hr'))
          (grant p r.1 r.2), grant_fst_mem]
      have hstep : ∀ r' ∈ R, r'.2 (grant p r.1 r.2).1 = r'.2 p.1 := fun r' hr' =>
        achIndep_grant (hind r' (List.mem_cons_of_mem _ hr')) p r.1 r.2
      constructor
      · rintro ((hx | ⟨rfl, hc, _⟩) | ⟨r', hr', hx, hc⟩)
        · exact Or.inl hx
        · exact Or.inr ⟨r, List.mem_cons_self _ _, rfl, hc⟩
        · exact Or.inr ⟨r', List.mem_cons_of_mem _ hr', hx,
            by rw [← hstep r' hr']; exact hc⟩
      · rintro (hx | ⟨r', hr', hx, hc⟩)
        · exact Or.inl (Or.inl hx)
        · rcases List.mem_cons.mp hr' with rfl | hr'
          · by_cases hni : r'.1 ∈ p.1.achievements
            · exact Or.inl (Or.inl (hx ▸ hni))
            · exact Or.inl (Or.inr ⟨hx, hc, hni⟩)
          · exact Or.inr ⟨r', hr', hx, by rw [hstep r' hr']; exact hc⟩

lemma grant_ach_mono (p : WorkoutStats × List String) (id : String)
    (c : WorkoutStats → Bool) (x : String) (hx : x ∈ p.1.achievements) :
    x ∈ (grant p id c).1.achievements :=
  (grant_fst_mem p id c x).mpr (Or.inl hx)

lemma foldGrant_mem_new (R : List (String × (WorkoutStats → Bool)))
    (hind : ∀ r ∈ R, achIndep r.2) (p : WorkoutStats × List String)
    (x : String) :
    x ∈ (foldGrant R p).2 ↔
      x ∈ p.2 ∨
        (x ∉ p.1.achievements ∧ ∃ r ∈ R, r.1 = x ∧ r.2 p.1 = true) := by
  induction R generalizing p with
  | nil => simp [foldGrant]
  | cons r R ih =>
      rw [foldGrant_cons,
        ih (fun r' hr' => hind r' (List.mem_cons_of_mem _ hr'))
          (grant p r.1 r.2), grant_snd_mem]
      have hstep : ∀ r' ∈ R, r'.2 (grant p r.1 r.2).1 = r'.2 p.1 := fun r' hr' =>
        achIndep_grant (hind r' (List.mem_cons_of_mem _ hr')) p r.1 r.2
      constructor
      · rintro ((hx | ⟨rfl, hc, hni⟩) | ⟨hnG, r', hr', hx, hc⟩)
        · exact Or.inl hx
        · exact Or.inr ⟨hni, r, List.mem_cons_self _ _, rfl, hc⟩
        · refine Or.inr ⟨fun hx' => hnG (grant_ach_mono p r.1 r.2 x hx'),
            r', List.mem_cons_of_mem _ hr', hx, ?_⟩
          rw [← hstep r' hr']; exact hc
      · rintro (hx | ⟨hnp, r', hr', hx, hc⟩)
        · exact Or.inl (Or.inl hx)
        · rcases List.mem_cons.mp hr' with rfl | hr'
          · exact Or.inl (Or.inr ⟨hx, hc, hx ▸ hnp⟩)
          · by_cases hd : r.1 = x ∧ r.2 p.1 = true
            · exact Or.inl (Or.inr ⟨hd.1, hd.2, hd.1 ▸ hnp⟩)
            · refine Or.inr ⟨?_, r', hr', hx, by rw [hstep r' hr']; exact hc⟩
              intro hxG
              rcases (grant_fst_mem p r.1 r.2 x).mp hxG with hx' | ⟨he, hc', _⟩
              · exact hnp hx'
              · exact hd ⟨he, hc'⟩

lemma foldGrant_nodup (R : List (String × (WorkoutStats → Bool)))
    (p : WorkoutStats × List String) (h : p.1.achievements.Nodup) :
    (foldGrant R p).1.achievements.Nodup := by
  induction R generalizing p with
  | nil => exact h
  | cons r R ih =>
      rw [foldGrant_cons]
      exact ih (grant p r.1 r.2) (grant_nodup p r.1 r.2 h)

/-! ### The rule table -/

lemma achRules_indep : ∀ r ∈ achRules, achIndep r.2 := by
  intro r hr
  simp only [achRules, List.mem_cons, List.not_mem_nil, or_false] at hr
  rcases hr with rfl | rfl | rfl | rfl | rfl | rfl | rfl <;> intro s l <;> rfl

lemma achRules_keys_nodup : (achRules.map Prod.fst).Nodup := by decide

lemma achRules_key_unique (r r' : String × (WorkoutStats → Bool))
    (h : r ∈ achRules) (h' : r' ∈ achRules) (hk : r.1 = r'.1) : r = r' :=
  List.inj_on_of_nodup_map achRules_keys_nodup h h' hk

lemma achKeys_in_catalog : ∀ y ∈ achRules.map Prod.fst, y ∈ ACHIEVEMENTS := by
  decide

lemma achRuleAt_mem (k : Nat) (hk : k < achRules.length) :
    achRuleAt k ∈ achRules := by
  unfold achRuleAt
  rw [List.getD_eq_getElem?_getD, List.getElem?_eq_getElem hk]
  exact List.getElem_mem _

/-! ### Facts about `check_achievements` -/

lemma check_mem_ach (x : String) (cb : WorkoutStats → Bool)
    (hrule : (x, cb) ∈ achRules) (s : WorkoutStats) :
    x ∈ (check_achievements s).1.achievements ↔
      x ∈ s.achievements ∨ cb s = true := by
  unfold check_achievements
  rw [foldGrant_mem_ach achRules achRules_indep (s, []) x]
  constructor
  · rintro (h | ⟨r, hr, hx, hc⟩)
    · exact Or.inl h
    · have he : r = (x, cb) := achRules_key_unique r (x, cb) hr hrule hx
      rw [he] at hc
      exact Or.inr hc
  · rintro (h | hc)
    · exact Or.inl h
    · exact Or.inr ⟨(x, cb), hrule, rfl, hc⟩

lemma check_mem_new (x : String) (cb : WorkoutStats → Bool)
    (hrule : (x, cb) ∈ achRules) (s : WorkoutStats) :
    x ∈ (check_achievements s).2 ↔ cb s = true ∧ x ∉ s.achievements := by
  unfold check_achievements
  rw [foldGrant_mem_new achRules achRules_indep (s, []) x]
  constructor
  · rintro (h | ⟨hn, r, hr, hx, hc⟩)
    · exact absurd h (List.not_mem_nil x)
    · have he : r = (x, cb) := achRules_key_unique r (x, cb) hr hrule hx
      rw [he] at hc
      exact ⟨hc, hn⟩
  · rintro ⟨hc, hn⟩
    exact Or.inr ⟨hn, (x, cb), hrule, rfl, hc⟩

lemma check_fields (s : WorkoutStats) :
    (check_achievements s).1.workouts_done = s.workouts_done ∧
    (check_achievements s).1.total_hold_time = s.total_hold_time ∧
    (check_achievements s).1.max_hold_time = s.max_hold_time ∧
    (check_achievements s).1.pullups_done = s.pullups_done ∧
    (check_achievements s).1.current_streak = s.current_streak ∧
    (check_achievements s).1.last_workout = s.last_workout :=
  foldGrant_fields achRules (s, [])

lemma check_ach_subset (s : WorkoutStats) (x : String)
    (hx : x ∈ (check_achievements s).1.achievements) :
    x ∈ s.achievements ∨ x ∈ ACHIEVEMENTS := by
  unfold check_achievements at hx
  rcases (foldGrant_mem_ach achRules achRules_indep (s, []) x).mp hx with
    h | ⟨r, hr, hkey, _⟩
  · exact Or.inl h
  · exact Or.inr (achKeys_in_catalog x (hkey ▸ List.mem_map_of_mem Prod.fst hr))

lemma check_nodup (s : WorkoutStats) (h : s.achievements.Nodup) :
    (check_achievements s).1.achievements.Nodup :=
  foldGrant_nodup achRules (s, []) h

/-! ### Facts about `updateStats` and `runLog` -/

lemma updateStats_eq (s : WorkoutStats) (c : LogCall) :
    updateStats s c =
      { workouts_done := s.workouts_done + 1,
        total_hold_time := s.total_hold_time + c.hold_time * 3,
        max_hold_time := max s.max_hold_time c.hold_time,
        pullups_done := s.pullups_done + c.pullups * 3,
        current_streak := s.current_streak + 1,
        last_workout := some c.now,
        achievements := s.achievements } := by
  unfold updateStats
  simp

lemma updateStats_ach (s : WorkoutStats) (c : LogCall) :
    (updateStats s c).achievements = s.achievements := by
  rw [updateStats_eq]

lemma runLog_nil (s : WorkoutStats) : runLog s [] = s := rfl

lemma runLog_cons (s : WorkoutStats) (c : LogCall) (cs : List LogCall) :
    runLog s (c :: cs) = runLog (log_workout s c).1 cs := rfl

lemma log_workout_eq (s : WorkoutStats) (c : LogCall) :
    log_workout s c = check_achievements (updateStats s c) := rfl

lemma updateStats_workouts (s : WorkoutStats) (c : LogCall) :
    (updateStats s c).workouts_done = s.workouts_done + 1 := by
  rw [updateStats_eq]

lemma updateStats_streak (s : WorkoutStats) (c : LogCall) :
    (updateStats s c).current_streak = s.current_streak + 1 := by
  rw [updateStats_eq]

lemma updateStats_max (s : WorkoutStats) (c : LogCall) :
    (updateStats s c).max_hold_time = max s.max_hold_time c.hold_time := by
  rw [updateStats_eq]

lemma updateStats_total (s : WorkoutStats) (c : LogCall) :
    (updateStats s c).total_hold_time = s.total_hold_time + c.hold_time * 3 := by
  rw [updateStats_eq]

lemma updateStats_pullups (s : WorkoutStats) (c : LogCall) :
    (updateStats s c).pullups_done = s.pullups_done + c.pullups * 3 := by
  rw [updateStats_eq]

lemma log_workout_fields (s : WorkoutStats) (c : LogCall) :
    (log_workout s c).1.workouts_done = s.workouts_done + 1 ∧
    (log_workout s c).1.current_streak = s.current_streak + 1 ∧
    (log_workout s c).1.max_hold_time = max s.max_hold_time c.hold_time ∧
    (log_workout s c).1.total_hold_time = s.total_hold_time + c.hold_time * 3 ∧
    (log_workout s c).1.pullups_done = s.pullups_done + c.pullups * 3 := by
  rw [log_workout_eq]
  have h := check_fields (updateStats s c)
  exact ⟨h.1.trans (updateStats_workouts s c),
    h.2.2.2.2.1.trans (updateStats_streak s c),
    h.2.2.1.trans (updateStats_max s c),
    h.2.1.trans (updateStats_total s c),
    h.2.2.2.1.trans (updateStats_pullups s c)⟩

lemma runLog_fields (cs : List LogCall) (s : WorkoutStats) :
    (runLog s cs).workouts_done = s.workouts_done + cs.length ∧
    (runLog s cs).current_streak = s.current_streak + cs.length ∧
    (runLog s cs).max_hold_time =
      (cs.map LogCall.hold_time).foldl max s.max_hold_time := by
  induction cs generalizing s with
  | nil =>
      refine ⟨by rw [runLog_nil]; rfl, ?_, by rw [runLog_nil]; rfl⟩
      rw [runLog_nil]
      simp
  | cons c cs ih =>
      have h1 := ih (log_workout s c).1
      have h2 := log_workout_fields s c
      refine ⟨?_, ?_, ?_⟩
      · rw [runLog_cons, h1.1, h2.1]
        simp only [List.length_cons]
        omega
      · rw [runLog_cons, h1.2.1, h2.2.1]
        simp only [List.length_cons]
        push_cast
        ring
      · rw [runLog_cons, h1.2.2, h2.2.2.1]
        simp [List.foldl_cons]

lemma fresh_ach : freshStats.achievements = ([] : List String) := rfl

lemma runLog_mem_ach (x : String) (cb : WorkoutStats → Bool)
    (hrule : (x, cb) ∈ achRules) (cs : List LogCall) :
    ∀ s : WorkoutStats,
      x ∈ (runLog s cs).achievements ↔
        x ∈ s.achievements ∨
          ∃ j, j < cs.length ∧
            cb (updateStats (runLog s (cs.take j)) (callAt cs j)) = true := by
  induction cs with
  | nil =>
      intro s
      rw [runLog_nil]
      simp
  | cons c cs ih =>
      intro s
      rw [runLog_cons, ih (log_workout s c).1]
      have h1 : x ∈ (log_workout s c).1.achievements ↔
          x ∈ s.achievements ∨ cb (updateStats s c) = true := by
        rw [log_workout_eq]
        have h := check_mem_ach x cb hrule (updateStats s c)
        rw [updateStats_ach] at h
        exact h
      rw [h1]
      constructor
      · rintro ((hx | hc0) | ⟨j, hj, hcj⟩)
        · exact Or.inl hx
        · exact Or.inr ⟨0, Nat.succ_pos _, hc0⟩
        · refine Or.inr ⟨j + 1, ?_, hcj⟩
          simp only [List.length_cons]
          omega
      · rintro (hx | ⟨j, hj, hcj⟩)
        · exact Or.inl (Or.inl hx)
        · cases j with
          | zero => exact Or.inl (Or.inr hcj)
          | succ j =>
              refine Or.inr ⟨j, ?_, hcj⟩
              simp only [List.length_cons] at hj
              omega

lemma callAt_take (cs : List LogCall) (i j : Nat) (hj : j < i) :
    callAt (cs.take i) j = callAt cs j := by
  unfold callAt
  simp [List.getD_eq_getElem?_getD, List.getElem?_take, hj]

lemma take_take_eq (cs : List LogCall) (i j : Nat) (hj : j ≤ i) :
    (cs.take i).take j = cs.take j := by
  rw [List.take_take, min_eq_left hj]

lemma length_take_eq (cs : List LogCall) (i : Nat) (hi : i ≤ cs.length) :
    (cs.take i).length = i := by
  rw [List.length_take]
  omega

lemma grantedAt_iff_gen (x : String) (cb : WorkoutStats → Bool)
    (hrule : (x, cb) ∈ achRules) (cs : List LogCall) (i : Nat)
    (hi : i < cs.length) :
    x ∈ grantedAt cs i ↔
      cb (snap cs i) = true ∧ ∀ j, j < i → cb (snap cs j) = false := by
  unfold grantedAt
  rw [log_workout_eq]
  have h := check_mem_new x cb hrule
    (updateStats (runLog freshStats (cs.take i)) (callAt cs i))
  rw [updateStats_ach] at h
  rw [h]
  have hnot : x ∉ (runLog freshStats (cs.take i)).achievements ↔
      ∀ j, j < i → cb (snap cs j) = false := by
    rw [runLog_mem_ach x cb hrule (cs.take i) freshStats]
    simp only [fresh_ach, List.not_mem_nil, false_or]
    constructor
    · intro hn j hj
      cases hb : cb (snap cs j) with
      | false => rfl
      | true =>
          exfalso
          refine hn ⟨j, ?_, ?_⟩
          · rw [length_take_eq cs i (le_of_lt hi)]
            exact hj
          · rw [take_take_eq cs i j (le_of_lt hj), callAt_take cs i j hj]
            exact hb
    · rintro hall ⟨j, hj, hcj⟩
      rw [length_take_eq cs i (le_of_lt hi)] at hj
      rw [take_take_eq cs i j (le_of_lt hj), callAt_take cs i j hj] at hcj
      have hcj2 : cb (snap cs j) = true := hcj
      rw [hall j hj] at hcj2
      simp at hcj2
  rw [hnot]
  rfl

lemma runLog_ach_subset (cs : List LogCall) :
    ∀ (s : WorkoutStats) (x : String), x ∈ (runLog s cs).achievements →
      x ∈ s.achievements ∨ x ∈ ACHIEVEMENTS := by
  induction cs with
  | nil =>
      intro s x hx
      rw [runLog_nil] at hx
      exact Or.inl hx
  | cons c cs ih =>
      intro s x hx
      rw [runLog_cons] at hx
      rcases ih (log_workout s c).1 x hx with h | h
      · rw [log_workout_eq] at h
        rcases check_ach_subset (updateStats s c) x h with h2 | h2
        · rw [updateStats_ach] at h2
          exact Or.inl h2
        · exact Or.inr h2
      · exact Or.inr h

lemma runLog_nodup (cs : List LogCall) :
    ∀ s : WorkoutStats, s.achievements.Nodup →
      (runLog s cs).achievements.Nodup := by
  induction cs with
  | nil =>
      intro s h
      rw [runLog_nil]
      exact h
  | cons c cs ih =>
      intro s h
      rw [runLog_cons]
      refine ih (log_workout s c).1 ?_
      rw [log_workout_eq]
      refine check_nodup (updateStats s c) ?_
      rw [updateStats_ach]
      exact h

/-! ### Folded maxima -/

lemma le_foldl_max_init (l : List Nat) (a : Nat) : a ≤ l.foldl max a := by
  induction l generalizing a with
  | nil => exact le_rfl
  | cons b l ih => exact le_trans (le_max_left a b) (ih (max a b))

lemma le_foldl_max_of_mem {x : Nat} {l : List Nat} (hx : x ∈ l) (a : Nat) :
    x ≤ l.foldl max a := by
  induction l generalizing a with
  | nil => cases hx
  | cons b l ih =>
      rcases List.mem_cons.mp hx with rfl | hx
      · exact le_trans (le_max_right a x) (le_foldl_max_init l (max a x))
      · exact ih hx (max a b)

lemma foldl_max_cases (l : List Nat) (a : Nat) :
    l.foldl max a = a ∨ l.foldl max a ∈ l := by
  induction l generalizing a with
  | nil => exact Or.inl rfl
  | cons b l ih =>
      rw [List.foldl_cons]
      rcases ih (max a b) with h | h
      · rw [h]
        rcases Nat.le_total a b with hab | hba
        · rw [max_eq_right hab]
          exact Or.inr (List.mem_cons_self _ _)
        · rw [max_eq_left hba]
          exact Or.inl rfl
      · exact Or.inr (List.mem_cons_of_mem _ h)

/-! ### Index helpers -/

lemma callAt_mem {cs : List LogCall} {i : Nat} (hi : i < cs.length) :
    callAt cs i ∈ cs := by
  unfold callAt
  rw [List.getD_eq_getElem?_getD, List.getElem?_eq_getElem hi]
  exact List.getElem_mem _

lemma exists_index_of_mem {c : LogCall} {cs : List LogCall} (hc : c ∈ cs) :
    ∃ i, i < cs.length ∧ callAt cs i = c := by
  obtain ⟨i, hi⟩ := List.get_of_mem hc
  refine ⟨i.1, i.2, ?_⟩
  unfold callAt
  simp [List.getD_eq_getElem?_getD, List.getElem?_eq_getElem i.2, ← hi,
    List.get_eq_getElem]

/-! ### Snapshot facts -/

lemma snap_workouts (cs : List LogCall) (i : Nat) (hi : i < cs.length) :
    (snap cs i).workouts_done = i + 1 := by
  unfold snap
  rw [updateStats_workouts, (runLog_fields (cs.take i) freshStats).1]
  have h0 : freshStats.workouts_done = 0 := rfl
  rw [h0, length_take_eq cs i (le_of_lt hi)]
  omega

lemma snap_max (cs : List LogCall) (i : Nat) ( _hi : i < cs.length) :
    (snap cs i).max_hold_time =
      max (((cs.take i).map LogCall.hold_time).foldl max 0)
        (callAt cs i).hold_time := by
  unfold snap
  rw [updateStats_max, (runLog_fields (cs.take i) freshStats).2.2]
  have h0 : freshStats.max_hold_time = 0 := rfl
  rw [h0]

lemma first_rule_mem :
    (("first_workout", fun s => s.workouts_done == 1) :
      String × (WorkoutStats → Bool)) ∈ achRules := by
  unfold achRules
  exact List.mem_cons_self _ _

lemma hold60_rule_mem :
    (("hold_60", fun s => decide (60 ≤ s.max_hold_time)) :
      String × (WorkoutStats → Bool)) ∈ achRules := by
  unfold achRules
  exact List.mem_cons_of_mem _ (List.mem_cons_of_mem _ (List.mem_cons_of_mem _
    (List.mem_cons_of_mem _ (List.mem_cons_of_mem _ (List.mem_cons_self _ _)))))

lemma first_workout_grant_iff (cs : List LogCall) (i : Nat)
    (hi : i < cs.length) :
    "first_workout" ∈ grantedAt cs i ↔ i = 0 := by
  rw [grantedAt_iff_gen _ _ first_rule_mem cs i hi]
  constructor
  · rintro ⟨h1, h2⟩
    by_contra hne
    have hi0 : 0 < i := Nat.pos_of_ne_zero hne
    have hc0 : ((snap cs 0).workouts_done == 1) = false := h2 0 hi0
    have h0 : (snap cs 0).workouts_done = 1 :=
      snap_workouts cs 0 (lt_trans hi0 hi)
    rw [h0] at hc0
    simp at hc0
  · rintro rfl
    refine ⟨?_, ?_⟩
    · show ((snap cs 0).workouts_done == 1) = true
      rw [snap_workouts cs 0 hi]
      rfl
    · intro j hj
      exact absurd hj (Nat.not_lt_zero j)

lemma hold60_final_iff (cs : List LogCall) :
    "hold_60" ∈ (runLog freshStats cs).achievements ↔
      ∃ c ∈ cs, 60 ≤ c.hold_time := by
  rw [runLog_mem_ach _ _ hold60_rule_mem cs freshStats]
  simp only [fresh_ach, List.not_mem_nil, false_or]
  constructor
  · rintro ⟨j, hj, hcj⟩
    have hcj2 : decide (60 ≤ (snap cs j).max_hold_time) = true := hcj
    rw [decide_eq_true_iff] at hcj2
    rw [snap_max cs j hj] at hcj2
    rcases le_max_iff.mp hcj2 with h | h
    · rcases foldl_max_cases ((cs.take j).map LogCall.hold_time) 0 with hc | hc
      · rw [hc] at h
        omega
      · obtain ⟨c, hcmem, hceq⟩ := List.mem_map.mp hc
        refine ⟨c, List.take_subset j cs hcmem, ?_⟩
        rw [hceq]
        exact h
    · exact ⟨callAt cs j, callAt_mem hj, h⟩
  · rintro ⟨c, hcmem, hc60⟩
    obtain ⟨i, hi, hci⟩ := exists_index_of_mem hcmem
    refine ⟨i, hi, ?_⟩
    show decide (60 ≤ (snap cs i).max_hold_time) = true
    rw [decide_eq_true_iff, snap_max cs i hi, hci]
    exact le_max_of_le_right hc60

/-! ### Scheduler and parsing helpers -/

lemma schedule_filter (jobs : List Job) (chat : Int) :
    (schedule_reminders_for_user jobs chat).filter
      (fun j => j.chat_id == chat && j.name == "forearm_reminder") =
      [⟨chat, "forearm_reminder", 0, 17, 0⟩,
       ⟨chat, "forearm_reminder", 2, 17, 0⟩,
       ⟨chat, "forearm_reminder", 4, 17, 0⟩] := by
  unfold schedule_reminders_for_user
  rw [List.filter_append]
  have h1 : (jobs.filter fun j =>
      !(j.chat_id == chat && j.name == "forearm_reminder")).filter
      (fun j => j.chat_id == chat && j.name == "forearm_reminder") = [] := by
    rw [List.filter_eq_nil_iff]
    intro a ha
    have h := List.of_mem_filter ha
    simp only [Bool.not_eq_true'] at h
    simp [h]
  rw [h1]
  simp [target_days]

lemma parse_default_one (cd : String) :
    (parseCallback cd).1 = 25 ∨ (parseCallback cd).2 = 6 := by
  simp only [parseCallback]
  split_ifs <;> simp

lemma parse_unrecognized (cd : String)
    (h : cd ∉ ["log_hold_25", "log_hold_35", "log_hold_45", "log_pull_5",
      "log_pull_7", "log_pull_9", "log_simple"]) :
    parseCallback cd = (25, 6) := by
  simp only [List.mem_cons, List.not_mem_nil, or_false, not_or] at h
  simp only [parseCallback]
  split_ifs with h1 h2 h3 h4 h5 h6 h7
  · exact absurd h1 h.1
  · exact absurd h2 h.2.1
  · exact absurd h3 h.2.2.1
  · exact absurd h4 h.2.2.2.1
  · exact absurd h5 h.2.2.2.2.1
  · exact absurd h6 h.2.2.2.2.2.1
  · exact absurd h7 h.2.2.2.2.2.2
  · rfl

/-! ### The claims -/

/-- C1 (code_bug evidence): the streak-update branch of `process_workout_log`
reads the `last_workout` value that was just overwritten with `now`, so the
whole-day gap it computes is always `0` and the streak is incremented by 1 on
every logged workout, never reset.  Concretely, a second workout logged three
whole days (259200 s) after the first yields `current_streak = 2`, where the
claim demands a reset to 1; in general every call adds exactly 1 to the
streak. -/
theorem C1_streak_never_resets :
    (runLog freshStats
      [{ now := 0, hold_time := 25, pullups := 6 },
       { now := 259200, hold_time := 25, pullups := 6 }]).current_streak = 2 ∧
    ∀ (s : WorkoutStats) (c : LogCall),
      (log_workout s c).1.current_streak = s.current_streak + 1 :=
  ⟨by decide, fun s c => (log_workout_fields s c).2.1⟩

/-- C2: for every finite sequence of log-workout calls on a fresh stats
record, `workouts_done` equals the call count, and `max_hold_time` equals the
maximum `hold_seconds` argument across the calls (it bounds every logged hold
and is attained by one of them whenever the sequence is nonempty). -/
theorem C2_counters (cs : List LogCall) :
    (runLog freshStats cs).workouts_done = cs.length ∧
    (∀ c ∈ cs, c.hold_time ≤ (runLog freshStats cs).max_hold_time) ∧
    (cs ≠ [] →
      ∃ c ∈ cs, (runLog freshStats cs).max_hold_time = c.hold_time) := by
  have hf := runLog_fields cs freshStats
  have hw : freshStats.workouts_done = 0 := rfl
  have hm : freshStats.max_hold_time = 0 := rfl
  refine ⟨?_, ?_, ?_⟩
  · rw [hf.1, hw]
    omega
  · intro c hc
    rw [hf.2.2]
    exact le_foldl_max_of_mem (List.mem_map_of_mem _ hc) _
  · intro hne
    rw [hf.2.2, hm]
    rcases foldl_max_cases (cs.map LogCall.hold_time) 0 with h | h
    · obtain ⟨c, hc⟩ := List.exists_mem_of_ne_nil cs hne
      refine ⟨c, hc, ?_⟩
      have h1 : c.hold_time ≤ (cs.map LogCall.hold_time).foldl max 0 :=
        le_foldl_max_of_mem (List.mem_map_of_mem _ hc) 0
      omega
    · obtain ⟨c, hcmem, hceq⟩ := List.mem_map.mp h
      exact ⟨c, hcmem, hceq.symm⟩

/-- Witness for C2 at a concrete two-call run. -/
theorem C2_counters_witness :
    (runLog freshStats
      [{ now := 0, hold_time := 30, pullups := 5 },
       { now := 86400, hold_time := 45, pullups := 6 }]).workouts_done = 2 := by
  have h := (C2_counters
    [{ now := 0, hold_time := 30, pullups := 5 },
     { now := 86400, hold_time := 45, pullups := 6 }]).1
  simpa using h

/-- C3: every rule of the achievement table is granted at most once per chat
id, exactly on the call where its threshold condition (evaluated on the
snapshot the code checks) first becomes satisfied and never again; in
particular `first_workout` is granted exactly on the first call, and
`hold_60` ends up granted iff some call passed `hold_seconds ≥ 60`. -/
theorem C3_achievements_once (cs : List LogCall) (k : Nat)
    (hk : k < achRules.length) :
    (∀ i, i < cs.length →
      ((achRuleAt k).1 ∈ grantedAt cs i ↔
        (achRuleAt k).2 (snap cs i) = true ∧
          ∀ j, j < i → (achRuleAt k).2 (snap cs j) = false)) ∧
    (∀ i i', i < cs.length → i' < cs.length →
      (achRuleAt k).1 ∈ grantedAt cs i → (achRuleAt k).1 ∈ grantedAt cs i' →
        i = i') ∧
    ((achRuleAt k).1 ∈ (runLog freshStats cs).achievements ↔
      ∃ j, j < cs.length ∧ (achRuleAt k).2 (snap cs j) = true) ∧
    (∀ i, i < cs.length → ("first_workout" ∈ grantedAt cs i ↔ i = 0)) ∧
    ("hold_60" ∈ (runLog freshStats cs).achievements ↔
      ∃ c ∈ cs, 60 ≤ c.hold_time) := by
  have hrule := achRuleAt_mem k hk
  refine ⟨?_, ?_, ?_, ?_, ?_⟩
  · intro i hi
    exact grantedAt_iff_gen _ _ hrule cs i hi
  · intro i i' hi hi' hg hg'
    have h1 := (grantedAt_iff_gen _ _ hrule cs i hi).mp hg
    have h2 := (grantedAt_iff_gen _ _ hrule cs i' hi').mp hg'
    by_contra hne
    rcases Nat.lt_or_ge i i' with hlt | hge
    · have hfalse := h2.2 i hlt
      rw [h1.1] at hfalse
      simp at hfalse
    · have hlt2 : i' < i := by omega
      have hfalse := h1.2 i' hlt2
      rw [h2.1] at hfalse
      simp at hfalse
  · rw [runLog_mem_ach (achRuleAt k).1 (achRuleAt k).2 hrule cs freshStats]
    simp only [fresh_ach, List.not_mem_nil, false_or]
    rfl
  · intro i hi
    exact first_workout_grant_iff cs i hi
  · exact hold60_final_iff cs

/-- Witness for C3: one 65-second call on a fresh record grants `hold_60`. -/
theorem C3_achievements_once_witness :
    "hold_60" ∈ (runLog freshStats
      [{ now := 0, hold_time := 65, pullups := 6 }]).achievements := by
  have h := (C3_achievements_once
    [{ now := 0, hold_time := 65, pullups := 6 }] 0 (by decide)).2.2.2.2
  exact h.mpr ⟨{ now := 0, hold_time := 65, pullups := 6 },
    List.mem_singleton_self _, by decide⟩

/-- C4: three `log_workout(25, 6)` calls spaced one day apart on a fresh
record yield `workouts_done = 3`, `current_streak = 3`, `pullups_done = 54`,
`total_hold_time = 225`, and an achievements set containing `first_workout`
and `streak_3`. -/
theorem C4_scenario :
    (runLog freshStats
      [{ now := 0, hold_time := 25, pullups := 6 },
       { now := 86400, hold_time := 25, pullups := 6 },
       { now := 172800, hold_time := 25, pullups := 6 }]).workouts_done = 3 ∧
    (runLog freshStats
      [{ now := 0, hold_time := 25, pullups := 6 },
       { now := 86400, hold_time := 25, pullups := 6 },
       { now := 172800, hold_time := 25, pullups := 6 }]).current_streak = 3 ∧
    (runLog freshStats
      [{ now := 0, hold_time := 25, pullups := 6 },
       { now := 86400, hold_time := 25, pullups := 6 },
       { now := 172800, hold_time := 25, pullups := 6 }]).pullups_done = 54 ∧
    (runLog freshStats
      [{ now := 0, hold_time := 25, pullups := 6 },
       { now := 86400, hold_time := 25, pullups := 6 },
       { now := 172800, hold_time := 25, pullups := 6 }]).total_hold_time
      = 225 ∧
    "first_workout" ∈ (runLog freshStats
      [{ now := 0, hold_time := 25, pullups := 6 },
       { now := 86400, hold_time := 25, pullups := 6 },
       { now := 172800, hold_time := 25, pullups := 6 }]).achievements ∧
    "streak_3" ∈ (runLog freshStats
      [{ now := 0, hold_time := 25, pullups := 6 },
       { now := 86400, hold_time := 25, pullups := 6 },
       { now := 172800, hold_time := 25, pullups := 6 }]).achievements := by
  decide

/-- C5: in every stats state reachable by logging workouts from the fresh
record (the only operation that mutates stats), the achievements are a subset
of the catalog with no duplicates, the streak is nonnegative, and
`max_hold_time` dominates every logged hold value. -/
theorem C5_invariants (cs : List LogCall) :
    (∀ a ∈ (runLog freshStats cs).achievements, a ∈ ACHIEVEMENTS) ∧
    (runLog freshStats cs).achievements.Nodup ∧
    0 ≤ (runLog freshStats cs).current_streak ∧
    (∀ c ∈ cs, c.hold_time ≤ (runLog freshStats cs).max_hold_time) := by
  refine ⟨?_, ?_, ?_, ?_⟩
  · intro a ha
    rcases runLog_ach_subset cs freshStats a ha with h | h
    · rw [fresh_ach] at h
      exact absurd h (List.not_mem_nil a)
    · exact h
  · refine runLog_nodup cs freshStats ?_
    rw [fresh_ach]
    exact List.nodup_nil
  · rw [(runLog_fields cs freshStats).2.1]
    have h0 : freshStats.current_streak = 0 := rfl
    rw [h0]
    omega
  · intro c hc
    rw [(runLog_fields cs freshStats).2.2]
    exact le_foldl_max_of_mem (List.mem_map_of_mem _ hc) _

/-- Witness for C5 at a concrete one-call run. -/
theorem C5_invariants_witness :
    (runLog freshStats
      [{ now := 0, hold_time := 25, pullups := 6 }]).achievements.Nodup :=
  (C5_invariants [{ now := 0, hold_time := 25, pullups := 6 }]).2.1

/-- C6: invoking the scheduler `n ≥ 1` times for one chat id always leaves
exactly the three weekly `forearm_reminder` triggers for that chat id
(Monday, Wednesday, Friday at 17:00), never `3 × n`, because each invocation
first removes the existing tagged triggers. -/
theorem C6_schedule_idempotent (jobs : List Job) (chat : Int) (n : Nat)
    (hn : 1 ≤ n) :
    (iterSchedule jobs chat n).filter
      (fun j => j.chat_id == chat && j.name == "forearm_reminder") =
      [⟨chat, "forearm_reminder", 0, 17, 0⟩,
       ⟨chat, "forearm_reminder", 2, 17, 0⟩,
       ⟨chat, "forearm_reminder", 4, 17, 0⟩] := by
  cases n with
  | zero => exact absurd hn (by omega)
  | succ n => exact schedule_filter (iterSchedule jobs chat n) chat

/-- Witness for C6: scheduling twice from an empty queue leaves exactly the
three triggers. -/
theorem C6_schedule_idempotent_witness :
    (iterSchedule [] 5 2).filter
      (fun j => j.chat_id == 5 && j.name == "forearm_reminder") =
      [⟨5, "forearm_reminder", 0, 17, 0⟩,
       ⟨5, "forearm_reminder", 2, 17, 0⟩,
       ⟨5, "forearm_reminder", 4, 17, 0⟩] :=
  C6_schedule_idempotent [] 5 2 (by omega)

/-- C7: when a reminder fires for a chat id absent from the registry, the
trigger removes itself and no message is sent; when the chat id is present,
the queue is left intact even if delivery fails. -/
theorem C7_reminder_self_removal (user_chats : List Int) (jobs : List Job)
    (job : Job) (delivery_ok : Bool) :
    (job.chat_id ∉ user_chats →
      (send_reminder user_chats jobs job delivery_ok).2 = 0 ∧
      job ∉ (send_reminder user_chats jobs job delivery_ok).1) ∧
    (job.chat_id ∈ user_chats →
      (send_reminder user_chats jobs job delivery_ok).1 = jobs) ∧
    (job.chat_id ∈ user_chats → delivery_ok = true →
      (send_reminder user_chats jobs job delivery_ok).2 = 1) := by
  unfold send_reminder
  refine ⟨?_, ?_, ?_⟩
  · intro h
    rw [if_pos h]
    refine ⟨rfl, ?_⟩
    intro hmem
    have h2 := List.of_mem_filter hmem
    simp at h2
  · intro h
    rw [if_neg (not_not_intro h)]
    cases delivery_ok <;> rfl
  · intro h hok
    subst hok
    rw [if_neg (not_not_intro h)]
    rfl

/-- Witness for C7: a reminder for unregistered chat 3 removes its trigger
and sends nothing. -/
theorem C7_reminder_self_removal_witness :
    (send_reminder [1, 2] [⟨3, "forearm_reminder", 0, 17, 0⟩]
      ⟨3, "forearm_reminder", 0, 17, 0⟩ true).2 = 0 :=
  ((C7_reminder_self_removal [1, 2] [⟨3, "forearm_reminder", 0, 17, 0⟩]
    ⟨3, "forearm_reminder", 0, 17, 0⟩ true).1 (by decide)).1

/-- C8: `log_event` is a silent no-op whenever the sink failed to initialize,
swallows append failures instead of raising (the embedding is total and
returns the unchanged rows on failure), and the stats result and reply of the
workout-log handler do not depend on the sink state, the prior rows or the
append outcome. -/
theorem C8_sink_noop (lg lg2 : GoogleSheetsLogger)
    (rows rows2 : List SheetRow) (stats : WorkoutStats) (chat_id : Int)
    (username : Option String) (callback_data : String) (now : Nat)
    (timestamp : String) (event_type : String) (cid : Option Int)
    (un : Option String) (message extra : String) (ok ok2 : Bool) :
    (lg.service = none →
      log_event lg rows event_type cid un message extra timestamp ok
        = rows) ∧
    (ok = false →
      log_event lg rows event_type cid un message extra timestamp ok
        = rows) ∧
    ((process_workout_log lg rows stats chat_id username callback_data now
        timestamp ok).1 =
      (process_workout_log lg2 rows2 stats chat_id username callback_data now
        timestamp ok2).1 ∧
     (process_workout_log lg rows stats chat_id username callback_data now
        timestamp ok).2.1 =
      (process_workout_log lg2 rows2 stats chat_id username callback_data now
        timestamp ok2).2.1) := by
  refine ⟨?_, ?_, ?_, ?_⟩
  · intro h
    unfold log_event
    rw [h]
  · intro h
    subst h
    unfold log_event
    cases lg.service with
    | none => rfl
    | some u => rfl
  · unfold process_workout_log
    rfl
  · unfold process_workout_log
    rfl

/-- Witness for C8: with a failed sink, a `log_event` call appends nothing. -/
theorem C8_sink_noop_witness :
    log_event { spreadsheet_id := "sid", service := none } [] "START"
      (some 42) (some "user") "msg" "" "2024-01-01 00:00:00" true = [] :=
  (C8_sink_noop { spreadsheet_id := "sid", service := none }
    { spreadsheet_id := "sid", service := none } [] [] freshStats 42 none
    "log_simple" 0 "2024-01-01 00:00:00" "START" (some 42) (some "user")
    "msg" "" true true).1 rfl

lemma parse_bounds (cd : String) :
    (parseCallback cd).1 ≤ 45 ∧ (parseCallback cd).2 ≤ 9 := by
  simp only [parseCallback]
  split_ifs <;> exact ⟨by decide, by decide⟩

lemma process_workout_log_parts (lg : GoogleSheetsLogger)
    (rows : List SheetRow) (stats : WorkoutStats) (chat_id : Int)
    (username : Option String) (cd : String) (now : Nat) (ts : String)
    (ok : Bool) :
    (process_workout_log lg rows stats chat_id username cd now ts ok).1 =
      (log_workout stats
        { now := now, hold_time := (parseCallback cd).1,
          pullups := (parseCallback cd).2 }).1 ∧
    (process_workout_log lg rows stats chat_id username cd now ts ok).2.1 =
      Response.workoutLogged
        (log_workout stats
          { now := now, hold_time := (parseCallback cd).1,
            pullups := (parseCallback cd).2 }).1.workouts_done
        (log_workout stats
          { now := now, hold_time := (parseCallback cd).1,
            pullups := (parseCallback cd).2 }).1.current_streak
        (log_workout stats
          { now := now, hold_time := (parseCallback cd).1,
            pullups := (parseCallback cd).2 }).2 := by
  constructor <;> rfl

lemma check_new_of_first_only (s : WorkoutStats)
    (hach : s.achievements = [])
    (h1 : s.workouts_done = 1)
    (h2 : s.current_streak < 3)
    (h4 : s.max_hold_time < 60)
    (h6 : s.pullups_done < 100) :
    (check_achievements s).2 = ["first_workout"] := by
  have n2 : ¬(3 ≤ s.current_streak) := by omega
  have n3 : ¬(10 ≤ s.current_streak) := by omega
  have n4 : ¬(10 ≤ s.workouts_done) := by omega
  have n5 : ¬(50 ≤ s.workouts_done) := by omega
  have n6 : ¬(60 ≤ s.max_hold_time) := by omega
  have n7 : ¬(100 ≤ s.pullups_done) := by omega
  unfold check_achievements foldGrant achRules
  simp [grant, hach, h1, n2, n3, n4, n5, n6, n7]

/-- C9 counterexample: a chat id that never issued `start` (fresh system,
empty stats store) and requests its stats receives the normal statistics view
over a lazily created all-zero record, not the guidance message the claim
demands. -/
theorem C9_counterexample :
    show_stats [] 7 = Response.statsView 0 0 0 0 0 0 ∧
    (show_stats [] 7).isGuidance = false := by
  decide

/-- C9 (amended): for a chat id with no stats entry — in particular one that
never issued `start`, since neither handler consults the user registry — a
status request is answered with the normal all-zero statistics view, and a
log-workout action (any payload) records the workout on the lazily created
record and is answered with the normal workout-logged reply (workout number
1, streak 1, `first_workout` unlocked); neither response is a guidance
message and no error path is taken. -/
theorem C9_unregistered_normal_response (store : List (Int × WorkoutStats))
    (chat_id : Int) (lg : GoogleSheetsLogger) (rows : List SheetRow)
    (username : Option String) (cd : String) (now : Nat) (ts : String)
    (ok : Bool) (h : store.lookup chat_id = none) :
    show_stats store chat_id = Response.statsView 0 0 0 0 0 0 ∧
    (show_stats store chat_id).isGuidance = false ∧
    (process_workout_log lg rows (statsFor store chat_id) chat_id username cd
      now ts ok).2.1 = Response.workoutLogged 1 1 ["first_workout"] ∧
    (process_workout_log lg rows (statsFor store chat_id) chat_id username cd
      now ts ok).2.1.isGuidance = false ∧
    (process_workout_log lg rows (statsFor store chat_id) chat_id username cd
      now ts ok).1.workouts_done = 1 := by
  have hfresh : statsFor store chat_id = freshStats := by
    unfold statsFor
    rw [h]
  have hshow : show_stats store chat_id = Response.statsView 0 0 0 0 0 0 := by
    unfold show_stats statsFor
    rw [h]
    rfl
  have hparts := process_workout_log_parts lg rows (statsFor store chat_id)
    chat_id username cd now ts ok
  have hcall :
      (log_workout (statsFor store chat_id)
        { now := now, hold_time := (parseCallback cd).1,
          pullups := (parseCallback cd).2 }).1.workouts_done = 1 ∧
      (log_workout (statsFor store chat_id)
        { now := now, hold_time := (parseCallback cd).1,
          pullups := (parseCallback cd).2 }).1.current_streak = 1 ∧
      (log_workout (statsFor store chat_id)
        { now := now, hold_time := (parseCallback cd).1,
          pullups := (parseCallback cd).2 }).2 = ["first_workout"] := by
    rw [hfresh]
    have hf := log_workout_fields freshStats
      { now := now, hold_time := (parseCallback cd).1,
        pullups := (parseCallback cd).2 }
    have hw0 : freshStats.workouts_done = 0 := rfl
    have hs0 : freshStats.current_streak = 0 := rfl
    have hm0 : freshStats.max_hold_time = 0 := rfl
    have hp0 : freshStats.pullups_done = 0 := rfl
    have hch : ({ now := now, hold_time := (parseCallback cd).1,
                  pullups := (parseCallback cd).2 } : LogCall).hold_time =
        (parseCallback cd).1 := rfl
    have hcp : ({ now := now, hold_time := (parseCallback cd).1,
                  pullups := (parseCallback cd).2 } : LogCall).pullups =
        (parseCallback cd).2 := rfl
    refine ⟨?_, ?_, ?_⟩
    · rw [hf.1, hw0]
    · rw [hf.2.1, hs0]
      omega
    · rw [log_workout_eq]
      refine check_new_of_first_only _ ?_ ?_ ?_ ?_ ?_
      · rw [updateStats_ach, fresh_ach]
      · rw [updateStats_workouts, hw0]
      · rw [updateStats_streak, hs0]
        omega
      · rw [updateStats_max, hm0, max_eq_right (Nat.zero_le _), hch]
        have hb := (parse_bounds cd).1
        omega
      · rw [updateStats_pullups, hp0, hcp]
        have hb := (parse_bounds cd).2
        omega
  refine ⟨hshow, by rw [hshow]; rfl, ?_, ?_, ?_⟩
  · rw [hparts.2, hcall.1, hcall.2.1, hcall.2.2]
  · rw [hparts.2, hcall.1, hcall.2.1, hcall.2.2]
    rfl
  · rw [hparts.1, hcall.1]

/-- Witness for C9 (amended) at the empty store: both the status view and the
workout-logged reply of chat 7. -/
theorem C9_unregistered_normal_response_witness :
    show_stats [] 7 = Response.statsView 0 0 0 0 0 0 ∧
    (process_workout_log { spreadsheet_id := "sid", service := none } []
      (statsFor [] 7) 7 none "log_simple" 0 "ts" true).2.1 =
      Response.workoutLogged 1 1 ["first_workout"] := by
  have h := C9_unregistered_normal_response [] 7
    { spreadsheet_id := "sid", service := none } [] none "log_simple" 0 "ts"
    true rfl
  exact ⟨h.1, h.2.2.1⟩

/-- C10: each hold-bucket button logs with `pullup_reps` defaulted to 6, each
pull-up-bucket button logs with `hold_seconds` defaulted to 25, an
unrecognized `log_`-prefixed payload logs the defaults 25/6, and no payload
can set both metrics away from their defaults in one logged workout. -/
theorem C10_button_parsing :
    button_callback "log_hold_25" = Routed.logged 25 6 ∧
    button_callback "log_hold_35" = Routed.logged 35 6 ∧
    button_callback "log_hold_45" = Routed.logged 45 6 ∧
    button_callback "log_pull_5" = Routed.logged 25 5 ∧
    button_callback "log_pull_7" = Routed.logged 25 7 ∧
    button_callback "log_pull_9" = Routed.logged 25 9 ∧
    button_callback "log_simple" = Routed.logged 25 6 ∧
    (∀ cd h p, button_callback cd = Routed.logged h p →
      h = 25 ∨ p = 6) ∧
    (∀ cd, "log_".data.isPrefixOf cd.data = true →
      cd ∉ ["log_workout", "log_hold_25", "log_hold_35", "log_hold_45",
        "log_pull_5", "log_pull_7", "log_pull_9", "log_simple"] →
      button_callback cd = Routed.logged 25 6) := by
  refine ⟨by decide, by decide, by decide, by decide, by decide, by decide,
    by decide, ?_, ?_⟩
  · intro cd h p hcd
    unfold button_callback at hcd
    split_ifs at hcd
    all_goals
      first
        | exact Routed.noConfusion hcd
        | (injection hcd with e1 e2
           subst e1
           subst e2
           exact parse_default_one cd)
  · intro cd hpre hnotin
    have h1 : cd ≠ "workout_today" := by
      rintro rfl
      exact absurd hpre (by decide)
    have h2 : cd ≠ "stats" := by
      rintro rfl
      exact absurd hpre (by decide)
    have h3 : cd ≠ "achievements" := by
      rintro rfl
      exact absurd hpre (by decide)
    have h4 : cd ≠ "help" := by
      rintro rfl
      exact absurd hpre (by decide)
    have h5 : cd ≠ "random_fact" := by
      rintro rfl
      exact absurd hpre (by decide)
    have h6 : cd ≠ "log_workout" := by
      rintro rfl
      exact hnotin (by decide)
    have hp := parse_unrecognized cd
      (fun hmem => hnotin (List.mem_cons_of_mem _ hmem))
    unfold button_callback
    rw [if_neg h1, if_neg h2, if_neg h3, if_neg h4, if_neg h5, if_neg h6,
      if_pos hpre, hp]

/-- Witness for C10: an unrecognized `log_`-prefixed payload logs the 25/6
defaults. -/
theorem C10_button_parsing_witness :
    button_callback "log_banana" = Routed.logged 25 6 :=
  C10_button_parsing.2.2.2.2.2.2.2.2 "log_banana" (by decide) (by decide)

end ForearmBot
